import Mathlib

/-
Verification of the 3D portfolio scene component
(src/app/src/components/ThreePortfolio.svelte).

The file ships two near-duplicate variants of the same component: the
action-based variant (variant A, the `threeSceneAction` closure) and the
onMount-based variant (variant B).  Both are embedded below where they
differ; numeric state is modelled over ℚ (exact arithmetic idealization
of the JS number operations the component performs).
-/

/-- Three-component vector, standing in for THREE.Vector3. -/
structure Vec3 where
  x : ℚ
  y : ℚ
  z : ℚ
  deriving DecidableEq

/-- Componentwise addition, as in Vector3.add. -/
def vadd (a b : Vec3) : Vec3 := ⟨a.x + b.x, a.y + b.y, a.z + b.z⟩

/-- Vector3.lerpVectors: this = v1 + (v2 - v1) * alpha, componentwise. -/
def lerpV (a b : Vec3) (t : ℚ) : Vec3 :=
  ⟨a.x + (b.x - a.x) * t, a.y + (b.y - a.y) * t, a.z + (b.z - a.z) * t⟩

/-- The two loadable models: `cameraModel` ("photography") and
`macbookModel` ("computerscience"). -/
inductive ModelId where
  | cam
  | mac
  deriving DecidableEq

/-- A scene-graph node as seen by the hover logic: either the registered
root of a loaded model, or any other node (floor, lights, intermediate
GLTF groups, meshes), distinguished by an index. -/
inductive SNode where
  | modelRoot : ModelId → SNode
  | plain : Nat → SNode
  deriving DecidableEq

/-- An object returned by raycasting, represented by its ancestor chain
(`parent`, `parent.parent`, ... up to the scene root). -/
structure HitObj where
  anc : List SNode
  deriving DecidableEq

/-- Intensity assigned to a hovered model's point light
(`cameraTargetIntensity = 2.5` in the source). -/
def litIntensity : ℚ := 5/2

/-- World position of each model root in variant A:
`cameraModel.position.set(-0.3, 0, 0)`, `macbookModel.position.set(0.3, 0, 0)`. -/
def modelWorldPos : ModelId → Vec3
  | ModelId.cam => ⟨-3/10, 0, 0⟩
  | ModelId.mac => ⟨3/10, 0, 0⟩

/-- Offset added to the model's world position by focusOn:
`new THREE.Vector3(0, 0.5, 2)`. -/
def focusOffset : Vec3 := ⟨0, 1/2, 2⟩

/-- Per-tick increment of the focus progress: `0.02 / duration` with
`duration = 1.2`. -/
def focusStep : ℚ := (2/100) / (12/10)

/-- One smoothing step of a light intensity:
`intensity += (target - intensity) * 0.08`. -/
def smoothStep (c t : ℚ) : ℚ := c + (t - c) * (8/100)

/-- One full light update of a frame tick: smoothing followed by the
flicker term `Math.sin(...) * 0.05`, added only when the smoothed
intensity exceeds 0.3.  `f` is the sine value (so `|f| ≤ 1` for inputs
produced by `Math.sin`). -/
def lightTick (c t f : ℚ) : ℚ :=
  if 3/10 < smoothStep c t then smoothStep c t + f * (5/100) else smoothStep c t

/-- The ancestor walk of variant A's animate:
`let parent = hoveredObject.parent; while (parent && !models.includes(parent))
parent = parent.parent;` followed by comparison against the model roots.
Only registered roots of loaded models are members of `models`. -/
def walkToRoot (models : List ModelId) : List SNode → Option ModelId
  | [] => none
  | SNode.modelRoot m :: rest =>
      if m ∈ models then some m else walkToRoot models rest
  | SNode.plain _ :: rest => walkToRoot models rest

/-- Model roots occurring in an ancestor chain. -/
def ancRoots (l : List SNode) : List ModelId :=
  l.filterMap (fun n => match n with
    | SNode.modelRoot m => some m
    | SNode.plain _ => none)

/-- Raycast soundness: `raycaster.intersectObjects(models, true)` only
returns descendants of loaded model roots, so a hit object's ancestor
chain contains a model root and every model root in it is loaded. -/
def hitValidB (models : List ModelId) (h : HitObj) : Bool :=
  !(ancRoots h.anc).isEmpty && (ancRoots h.anc).all (fun m => decide (m ∈ models))

/-- Closure state of the frame loop in variant A: load flags for the two
GLTF callbacks, `hoveredObject`, the two target intensities, the two
point-light intensities, a render counter, and `camera.position`. -/
structure WorldState where
  camLoaded : Bool
  macLoaded : Bool
  hovered : Option HitObj
  camTarget : ℚ
  compTarget : ℚ
  camGlow : ℚ
  compGlow : ℚ
  renders : Nat
  cameraPos : Vec3
  deriving DecidableEq

/-- `[cameraModel, macbookModel].filter(Boolean)`. -/
def loadedModels (s : WorldState) : List ModelId :=
  (if s.camLoaded then [ModelId.cam] else []) ++
  (if s.macLoaded then [ModelId.mac] else [])

/-- Per-tick environment inputs: the nearest raycast hit (if any), the two
sine values feeding the flicker terms, and the camera position that
`controls.update()` computes and writes this tick (orbit controls always
rewrite the camera position from their spherical state). -/
structure TickInput where
  hit : Option HitObj
  camFlick : ℚ
  compFlick : ℚ
  orbitPos : Vec3
  deriving DecidableEq

/-- Validity of a tick's inputs: hits only occur when some model is
loaded and only on descendants of loaded roots; sine values lie in
[-1, 1]. -/
def tickValid (s : WorldState) (inp : TickInput) : Prop :=
  (match inp.hit with
   | some h => (loadedModels s).isEmpty = false ∧ hitValidB (loadedModels s) h = true
   | none => True)
  ∧ |inp.camFlick| ≤ 1 ∧ |inp.compFlick| ≤ 1

/-- The hover block of variant A's animate(): if any model is loaded,
resolve the raycast hit by the ancestor walk, setting `hoveredObject` and
the two target intensities; the whole block is skipped while
`[cameraModel, macbookModel].filter(Boolean)` is empty. -/
def hoverStage (s : WorldState) (inp : TickInput) : WorldState :=
  if (loadedModels s).isEmpty then s
  else
    match inp.hit with
    | some h =>
        let s2 := { s with hovered := some h }
        match walkToRoot (loadedModels s) h.anc with
        | some ModelId.cam => { s2 with camTarget := litIntensity, compTarget := 0 }
        | some ModelId.mac => { s2 with camTarget := 0, compTarget := litIntensity }
        | none => s2
    | none => { s with hovered := none, camTarget := 0, compTarget := 0 }

/-- One tick of variant A's animate(): controls.update() writes the camera
position; then the hover block runs, then both light intensities are
smoothed and flickered, then the scene is rendered. -/
def animateTick (s : WorldState) (inp : TickInput) : WorldState :=
  let s1 := hoverStage { s with cameraPos := inp.orbitPos } inp
  { s1 with
    camGlow := lightTick s1.camGlow s1.camTarget inp.camFlick,
    compGlow := lightTick s1.compGlow s1.compTarget inp.compFlick,
    renders := s1.renders + 1 }

/-- Events acting on the frame-loop closure state: a frame tick, the two
asynchronous GLTF load callbacks, and a camera write performed by an
interleaved focus-transition tick. -/
inductive Ev where
  | tick (inp : TickInput)
  | loadCam
  | loadMac
  | camWrite (p : Vec3)

/-- Effect of one event. -/
def stepW (s : WorldState) : Ev → WorldState
  | Ev.tick inp => animateTick s inp
  | Ev.loadCam => { s with camLoaded := true }
  | Ev.loadMac => { s with macLoaded := true }
  | Ev.camWrite p => { s with cameraPos := p }

/-- Which events can occur in a state. -/
def evValid (s : WorldState) : Ev → Prop
  | Ev.tick inp => tickValid s inp
  | Ev.loadCam => True
  | Ev.loadMac => True
  | Ev.camWrite _ => True

/-- State at mount: nothing loaded, nothing hovered, both lights off
(point lights created with intensity 0), `camera.position.set(0.5, 0, 1)`. -/
def initWorld : WorldState :=
  { camLoaded := false, macLoaded := false, hovered := none,
    camTarget := 0, compTarget := 0, camGlow := 0, compGlow := 0,
    renders := 0, cameraPos := ⟨1/2, 0, 1⟩ }

/-- States reachable from mount by valid events. -/
inductive Reachable : WorldState → Prop where
  | base : Reachable initWorld
  | step : ∀ {s : WorldState} {e : Ev},
      Reachable s → evValid s e → Reachable (stepW s e)

/-- Closure state of one focusOn call: `start`, `end`, the portfolio key,
`progress`, and whether another `move` callback is scheduled. -/
structure FocusRun where
  start : Vec3
  endP : Vec3
  key : String
  progress : ℚ
  scheduled : Bool
  deriving DecidableEq

/-- One move() tick.  `snap = true` is variant A (on completion,
`camera.position.copy(end)`); `snap = false` is variant B, whose else
branch leaves the camera where the last lerp put it.  Returns the updated
run, the camera position after the tick, and the emitted portfolio keys
(`console.log('Open portfolio:', portfolio)` fires on completion). -/
def focusStepCore (snap : Bool) (cam : Vec3) (r : FocusRun) : FocusRun × Vec3 × List String :=
  let p := r.progress + focusStep
  if p < 1 then
    ({ r with progress := p, scheduled := true }, lerpV r.start r.endP p, [])
  else
    ({ r with progress := p, scheduled := false }, if snap then r.endP else cam, [r.key])

/-- Drive a focus run for up to `n` scheduled callbacks; the run stops
rescheduling once `progress` reaches 1. -/
def runFocus (snap : Bool) : Nat → FocusRun → Vec3 → List String → FocusRun × Vec3 × List String
  | 0, r, cam, evs => (r, cam, evs)
  | Nat.succ n, r, cam, evs =>
      if r.scheduled then
        let t := focusStepCore snap cam r
        runFocus snap n t.1 t.2.1 (evs ++ t.2.2)
      else (r, cam, evs)

/-- Fresh focus run as built by focusOn: progress 0, first move() call
already scheduled (focusOn invokes move() synchronously). -/
def mkRun (st en : Vec3) (key : String) : FocusRun :=
  { start := st, endP := en, key := key, progress := 0, scheduled := true }

/-- Whole-component state of variant A: the frame-loop closure state, the
focus runs created so far, whether the main loop's next frame is
scheduled, whether the window listeners are registered, whether destroy()
ran, and the emitted portfolio keys. -/
structure SysState where
  w : WorldState
  runs : List FocusRun
  mainScheduled : Bool
  listeners : Bool
  destroyed : Bool
  events : List String
  deriving DecidableEq

/-- onClick's ownership test: `hoveredObject.parent === root ||
hoveredObject.parent?.parent === root` (parent or grandparent only). -/
def isPG (h : HitObj) (m : ModelId) : Bool :=
  match h.anc with
  | [] => false
  | a :: rest =>
      decide (a = SNode.modelRoot m) ||
      (match rest with
       | b :: _ => decide (b = SNode.modelRoot m)
       | [] => false)

/-- focusOn(obj, portfolio): compute start = camera.position, end = the
model's world position plus the fixed offset, then run the first move()
tick synchronously.  Appends a new run unconditionally — there is no
guard against an already-running transition. -/
def startFocus (s : SysState) (m : ModelId) (key : String) : SysState :=
  let r0 := mkRun s.w.cameraPos (vadd (modelWorldPos m) focusOffset) key
  let t := focusStepCore true s.w.cameraPos r0
  { s with runs := s.runs ++ [t.1],
           w := { s.w with cameraPos := t.2.1 },
           events := s.events ++ t.2.2 }

/-- Variant A's onClick handler: if something is hovered and its parent or
grandparent is a loaded model root, start a focus transition with that
model's portfolio key. -/
def clickHandler (s : SysState) : SysState :=
  match s.w.hovered with
  | none => s
  | some h =>
      if s.w.camLoaded && isPG h ModelId.cam then
        startFocus s ModelId.cam "photography"
      else if s.w.macLoaded && isPG h ModelId.mac then
        startFocus s ModelId.mac "computerscience"
      else s

/-- Whole-component events: a click event, a main-loop frame, the
scheduled callback of the i-th focus run, the load callbacks, and
destroy(). -/
inductive SEv where
  | click
  | mainTick (inp : TickInput)
  | focusTick (i : Nat)
  | loadCam
  | loadMac
  | destroy

/-- Effect of one whole-component event.  A click only runs the handler
while the click listener is registered; a main-loop frame only fires
while its requestAnimationFrame is scheduled; a focus callback fires
whenever that run is still scheduled — destroy() cancels only
`animationFrameId` and never the `focusAnimationId` of an in-flight
transition. -/
def stepS (s : SysState) : SEv → SysState
  | SEv.click => if s.listeners then clickHandler s else s
  | SEv.mainTick inp =>
      if s.mainScheduled then { s with w := animateTick s.w inp } else s
  | SEv.focusTick i =>
      match s.runs.get? i with
      | some r =>
          if r.scheduled then
            let t := focusStepCore true s.w.cameraPos r
            { s with runs := s.runs.set i t.1,
                     w := { s.w with cameraPos := t.2.1 },
                     events := s.events ++ t.2.2 }
          else s
      | none => s
  | SEv.loadCam => { s with w := { s.w with camLoaded := true } }
  | SEv.loadMac => { s with w := { s.w with macLoaded := true } }
  | SEv.destroy => { s with mainScheduled := false, listeners := false, destroyed := true }

/-- Component state right after mount: animate() called (frame scheduled),
listeners registered, no focus run. -/
def sysInit : SysState :=
  { w := initWorld, runs := [], mainScheduled := true, listeners := true,
    destroyed := false, events := [] }

/-- Camera/renderer state touched by handleResize: camera.aspect, the
render-target size, and a counter of updateProjectionMatrix() calls. -/
structure ViewState where
  aspect : ℚ
  width : ℚ
  height : ℚ
  projVersion : Nat
  deriving DecidableEq

/-- handleResize: `camera.aspect = w / h; camera.updateProjectionMatrix();
renderer.setSize(w, h)` — unconditionally, with no guard on zero
dimensions. -/
def handleResize (v : ViewState) (w h : ℚ) : ViewState :=
  { aspect := w / h, width := w, height := h, projVersion := v.projVersion + 1 }

/-- A mesh whose direct parent is the camera model's registered root, as
produced by hovering the camera model. -/
def hitCam : HitObj := ⟨[SNode.modelRoot ModelId.cam]⟩

/-- Frame input while the pointer rests on the camera model and the orbit
controls leave the camera at its mount position. -/
def inp0 : TickInput := { hit := some hitCam, camFlick := 0, compFlick := 0, orbitPos := ⟨1/2, 0, 1⟩ }

/-- Frame input with no raycast hit at all. -/
def inpNone : TickInput := { hit := none, camFlick := 0, compFlick := 0, orbitPos := ⟨0, 0, 0⟩ }

/-- Frame input where the orbit controls have moved the camera to
(9, 9, 9), away from any focus-interpolation position. -/
def inp9 : TickInput := { hit := some hitCam, camFlick := 0, compFlick := 0, orbitPos := ⟨9, 9, 9⟩ }

/-- Component state after mount, the camera-model load callback, and one
frame with the pointer on the camera model. -/
def sHover : SysState := stepS (stepS sysInit SEv.loadCam) (SEv.mainTick inp0)

/-- Component state after additionally clicking the hovered camera model:
one focus transition is running. -/
def sClick1 : SysState := stepS sHover SEv.click

/-- The focus run created by that click: start at the mount camera
position, end over the camera model, one move() tick already executed. -/
def runClick1 : FocusRun :=
  { start := ⟨1/2, 0, 1⟩, endP := ⟨-3/10, 1/2, 2⟩, key := "photography",
    progress := 1/60, scheduled := true }

/-- Component state after a further main-loop frame whose orbit-controls
output is (9, 9, 9), while the focus transition is still running. -/
def sOrbit : SysState := stepS sClick1 (SEv.mainTick inp9)

/-- Component state after destroy() runs while the focus transition is
still running. -/
def sDestroyed : SysState := stepS sClick1 SEv.destroy

/-- Component state after the in-flight focus run's scheduled callback
fires post-teardown. -/
def sAfter : SysState := stepS sDestroyed (SEv.focusTick 0)

/-- Start position for a standalone focus run (the variant B mount camera
position (0.5, 0, 4)). -/
def st2 : Vec3 := ⟨1/2, 0, 4⟩

/-- End position for a standalone focus run (variant B camera model at
(-0.5, 0, 0) plus the fixed offset). -/
def en2 : Vec3 := ⟨-1/2, 1/2, 2⟩

/-- Frame-loop state invariant: at most one light target is lit, an
unloaded scene has no hover and dark targets, and targets and intensities
are non-negative. -/
def WInv (s : WorldState) : Prop :=
  (s.camTarget = 0 ∨ s.compTarget = 0) ∧
  (s.camLoaded = false → s.macLoaded = false →
      s.hovered = none ∧ s.camTarget = 0 ∧ s.compTarget = 0) ∧
  0 ≤ s.camTarget ∧ 0 ≤ s.compTarget ∧ 0 ≤ s.camGlow ∧ 0 ≤ s.compGlow

/-- Camera/renderer view state before the degenerate resize used below:
an 800x400 surface with aspect 2. -/
def viewPrev : ViewState := { aspect := 2, width := 800, height := 400, projVersion := 0 }

lemma focusStep_eq : focusStep = 1/60 := by norm_num [focusStep]

lemma runFocus_unsched (snap : Bool) (n : Nat) (r : FocusRun) (cam : Vec3) (evs : List String)
    (h : r.scheduled = false) : runFocus snap n r cam evs = (r, cam, evs) := by
  induction n with
  | zero => rfl
  | succ n ih => simp [runFocus, h]

lemma runFocus_run (snap : Bool) (st en : Vec3) (key : String) :
    ∀ (n j : Nat) (cam : Vec3) (evs : List String), 0 < n → n + j < 60 →
      runFocus snap n ⟨st, en, key, (j : ℚ)/60, true⟩ cam evs
        = (⟨st, en, key, ((j + n : ℕ) : ℚ)/60, true⟩, lerpV st en (((j + n : ℕ) : ℚ)/60), evs) := by
  intro n
  induction n with
  | zero => omega
  | succ n ih =>
      intro j cam evs _ hlt
      have hp : (j : ℚ)/60 + focusStep = ((j + 1 : ℕ) : ℚ)/60 := by
        rw [focusStep_eq]; push_cast; ring
      have hj1 : j + 1 < 60 := by omega
      have hplt : ((j + 1 : ℕ) : ℚ)/60 < 1 := by
        rw [div_lt_one (by norm_num : (0:ℚ) < 60)]
        exact_mod_cast hj1
      rcases Nat.eq_zero_or_pos n with hn | hn
      · subst hn
        show (if (⟨st, en, key, (j : ℚ)/60, true⟩ : FocusRun).scheduled then _ else _) = _
        rw [if_pos rfl]
        simp only [focusStepCore, hp]
        rw [if_pos hplt]
        simp [runFocus]
      · have IH := ih (j + 1) (lerpV st en (((j + 1 : ℕ) : ℚ)/60)) evs hn (by omega)
        show (if (⟨st, en, key, (j : ℚ)/60, true⟩ : FocusRun).scheduled then _ else _) = _
        rw [if_pos rfl]
        simp only [focusStepCore, hp]
        rw [if_pos hplt]
        simp only [List.append_nil]
        rw [IH]
        have hswap : j + 1 + n = j + (n + 1) := by omega
        rw [hswap]

lemma runFocus_complete (snap : Bool) (st en : Vec3) (key : String) :
    ∀ (n j : Nat) (cam : Vec3) (evs : List String), j < 60 → 60 ≤ j + n →
      runFocus snap n ⟨st, en, key, (j : ℚ)/60, true⟩ cam evs
        = (⟨st, en, key, 1, false⟩,
           if snap then en else if j = 59 then cam else lerpV st en (59/60),
           evs ++ [key]) := by
  intro n
  induction n with
  | zero => omega
  | succ n ih =>
      intro j cam evs hj hge
      have hp : (j : ℚ)/60 + focusStep = ((j + 1 : ℕ) : ℚ)/60 := by
        rw [focusStep_eq]; push_cast; ring
      show (if (⟨st, en, key, (j : ℚ)/60, true⟩ : FocusRun).scheduled then _ else _) = _
      rw [if_pos rfl]
      by_cases hj1 : j + 1 < 60
      · have hplt : ((j + 1 : ℕ) : ℚ)/60 < 1 := by
          rw [div_lt_one (by norm_num : (0:ℚ) < 60)]
          exact_mod_cast hj1
        simp only [focusStepCore, hp]
        rw [if_pos hplt]
        simp only [List.append_nil]
        rw [ih (j + 1) (lerpV st en (((j + 1 : ℕ) : ℚ)/60)) evs hj1 (by omega)]
        have hne : j ≠ 59 := by omega
        by_cases hsnap : snap
        · simp [hsnap]
        · simp only [hsnap, if_neg hne, Bool.false_eq_true, if_false]
          by_cases h59 : j + 1 = 59
          · rw [if_pos h59, h59]
            norm_num
          · rw [if_neg h59]
      · have hj59 : j = 59 := by omega
        have hpe : ((j + 1 : ℕ) : ℚ)/60 = 1 := by
          rw [hj59]; norm_num
        have hnlt : ¬ (((j + 1 : ℕ) : ℚ)/60 < 1) := by rw [hpe]; exact lt_irrefl 1
        simp only [focusStepCore, hp]
        rw [if_neg hnlt]
        rw [runFocus_unsched snap n _ _ _ rfl]
        rw [hpe, hj59]
        simp

lemma mkRun_cast (st en : Vec3) (key : String) :
    mkRun st en key = (⟨st, en, key, ((0:ℕ) : ℚ)/60, true⟩ : FocusRun) := by
  simp [mkRun]

lemma loadedModels_empty (s : WorldState) (h1 : s.camLoaded = false) (h2 : s.macLoaded = false) :
    loadedModels s = [] := by
  simp [loadedModels, h1, h2]

lemma loadedModels_nil (s : WorldState) (h : loadedModels s = []) :
    s.camLoaded = false ∧ s.macLoaded = false := by
  constructor
  · cases hcb : s.camLoaded
    · rfl
    · rw [loadedModels, hcb] at h
      simp at h
  · cases hmb : s.macLoaded
    · rfl
    · rw [loadedModels, hmb] at h
      simp at h

lemma walk_nil : ∀ l : List SNode, walkToRoot [] l = none := by
  intro l
  induction l with
  | nil => rfl
  | cons a rest ih =>
      cases a with
      | modelRoot m => simp [walkToRoot, ih]
      | plain k => simp [walkToRoot, ih]

lemma smoothStep_nonneg (c t : ℚ) (hc : 0 ≤ c) (ht : 0 ≤ t) : 0 ≤ smoothStep c t := by
  unfold smoothStep
  nlinarith

lemma lightTick_nonneg (c t f : ℚ) (hc : 0 ≤ c) (ht : 0 ≤ t) (hf : |f| ≤ 1) :
    0 ≤ lightTick c t f := by
  have hf1 : -1 ≤ f := (abs_le.mp hf).1
  unfold lightTick
  split
  · rename_i h
    nlinarith
  · exact smoothStep_nonneg c t hc ht

lemma litIntensity_nonneg : (0:ℚ) ≤ litIntensity := by norm_num [litIntensity]

lemma hover_winv (s : WorldState) (inp : TickInput) (ih : WInv s) : WInv (hoverStage s inp) := by
  obtain ⟨ih1, ih2, ih3, ih4, ih5, ih6⟩ := ih
  unfold hoverStage
  split
  · exact ⟨ih1, ih2, ih3, ih4, ih5, ih6⟩
  · rename_i hne
    have hvac : s.camLoaded = false → s.macLoaded = false → False := fun a b =>
      hne (by rw [loadedModels_empty s a b]; rfl)
    split
    · rename_i h
      dsimp only
      split
      · exact ⟨Or.inr rfl, fun a b => (hvac a b).elim, litIntensity_nonneg, le_refl 0, ih5, ih6⟩
      · exact ⟨Or.inl rfl, fun a b => (hvac a b).elim, le_refl 0, litIntensity_nonneg, ih5, ih6⟩
      · exact ⟨ih1, fun a b => (hvac a b).elim, ih3, ih4, ih5, ih6⟩
    · exact ⟨Or.inl rfl, fun a b => (hvac a b).elim, le_refl 0, le_refl 0, ih5, ih6⟩

lemma winv_tick (s : WorldState) (inp : TickInput) (hcf : |inp.camFlick| ≤ 1)
    (hpf : |inp.compFlick| ≤ 1) (ih : WInv s) : WInv (animateTick s inp) := by
  have h1 : WInv (hoverStage { s with cameraPos := inp.orbitPos } inp) :=
    hover_winv _ inp ih
  obtain ⟨a1, a2, a3, a4, a5, a6⟩ := h1
  exact ⟨a1, a2, a3, a4, lightTick_nonneg _ _ _ a5 a3 hcf, lightTick_nonneg _ _ _ a6 a4 hpf⟩

lemma reachable_inv {s : WorldState} (h : Reachable s) : WInv s := by
  induction h with
  | base =>
      refine ⟨Or.inl rfl, fun _ _ => ⟨rfl, rfl, rfl⟩, ?_, ?_, ?_, ?_⟩ <;> norm_num [initWorld]
  | @step s e hr hv ih =>
      cases e with
      | loadCam =>
          refine ⟨ih.1, ?_, ih.2.2⟩
          intro a
          exact absurd a (by simp [stepW])
      | loadMac =>
          refine ⟨ih.1, ?_, ih.2.2⟩
          intro _ b
          exact absurd b (by simp [stepW])
      | camWrite p => exact ih
      | tick inp =>
          obtain ⟨-, hcf, hpf⟩ := (hv : tickValid s inp)
          exact winv_tick s inp hcf hpf ih

lemma hoverStage_empty (s : WorldState) (inp : TickInput) (h : (loadedModels s).isEmpty) :
    hoverStage s inp = s := by
  unfold hoverStage
  simp [h]

lemma hoverStage_hitCam (s : WorldState) (inp : TickInput) (h : HitObj) (hh : inp.hit = some h)
    (hwalk : walkToRoot (loadedModels s) h.anc = some ModelId.cam) :
    (hoverStage s inp).hovered = some h ∧ (hoverStage s inp).camTarget = litIntensity ∧
      (hoverStage s inp).compTarget = 0 := by
  unfold hoverStage
  split
  · rename_i hemp
    rw [List.isEmpty_iff.mp hemp, walk_nil] at hwalk
    exact absurd hwalk (by simp)
  · rw [hh]
    dsimp only
    rw [hwalk]
    exact ⟨rfl, rfl, rfl⟩

lemma hoverStage_hitMac (s : WorldState) (inp : TickInput) (h : HitObj) (hh : inp.hit = some h)
    (hwalk : walkToRoot (loadedModels s) h.anc = some ModelId.mac) :
    (hoverStage s inp).hovered = some h ∧ (hoverStage s inp).camTarget = 0 ∧
      (hoverStage s inp).compTarget = litIntensity := by
  unfold hoverStage
  split
  · rename_i hemp
    rw [List.isEmpty_iff.mp hemp, walk_nil] at hwalk
    exact absurd hwalk (by simp)
  · rw [hh]
    dsimp only
    rw [hwalk]
    exact ⟨rfl, rfl, rfl⟩

lemma hoverStage_none (s : WorldState) (inp : TickInput) (hh : inp.hit = none)
    (hinv : WInv s) :
    (hoverStage s inp).hovered = none ∧ (hoverStage s inp).camTarget = 0 ∧
      (hoverStage s inp).compTarget = 0 := by
  unfold hoverStage
  split
  · rename_i hemp
    obtain ⟨hc, hm⟩ := loadedModels_nil s (List.isEmpty_iff.mp hemp)
    exact hinv.2.1 hc hm
  · rw [hh]
    exact ⟨rfl, rfl, rfl⟩

/-- Claim C1: a click is claimed to start a focus transition only when a
loaded model is hovered and no transition is already running.  Clicking
with nothing hovered is indeed a no-op, and here a transition is running
(one run, scheduled, progress 1/60 < 1, no selection signal yet), yet a
second click is not ignored: onClick calls focusOn again and a second
concurrent transition appears (two scheduled runs). -/
theorem clickWhileRunningStartsSecond :
    stepS sysInit SEv.click = sysInit ∧
    sClick1.runs.map FocusRun.scheduled = [true] ∧
    sClick1.runs.map FocusRun.progress = [1/60] ∧ ((1:ℚ)/60 < 1) ∧
    sClick1.events = [] ∧
    (stepS sClick1 SEv.click).runs.length = 2 ∧
    (stepS sClick1 SEv.click).runs.map FocusRun.scheduled = [true, true] := by
  norm_num [sClick1, sHover, stepS, sysInit, initWorld, animateTick, hoverStage, loadedModels,
    walkToRoot, hitCam, inp0, lightTick, smoothStep, litIntensity, clickHandler, isPG,
    startFocus, mkRun, focusStepCore, focusStep, lerpV, vadd, modelWorldPos, focusOffset]

/-- Claim C2: for a transition from st2 to en2, progress is exactly 1
(not greater) on the completion tick in both variants, but only variant A
(snap = true) then sets the camera exactly to the end position: variant B
(snap = false) leaves the camera at the interpolation for progress 59/60,
whose y-coordinate 59/120 is short of the end's 1/2, and it stays there
on every later tick. -/
theorem focusCompletionCamera :
    (runFocus true 60 (mkRun st2 en2 "photography") st2 []).1.progress = 1 ∧
    (runFocus true 60 (mkRun st2 en2 "photography") st2 []).2.1 = en2 ∧
    (runFocus true 30 (mkRun st2 en2 "photography") st2 []).1.progress = 30/60 ∧
    (runFocus false 60 (mkRun st2 en2 "photography") st2 []).1.progress = 1 ∧
    (runFocus false 60 (mkRun st2 en2 "photography") st2 []).2.1 = lerpV st2 en2 (59/60) ∧
    (lerpV st2 en2 (59/60)).y = 59/120 ∧ en2.y = 1/2 ∧ ((59:ℚ)/120 < 1/2) ∧
    (runFocus false 100 (mkRun st2 en2 "photography") st2 []).2.1 = lerpV st2 en2 (59/60) := by
  have hA60 := runFocus_complete true st2 en2 "photography" 60 0 st2 [] (by omega) (by omega)
  have hA30 := runFocus_run true st2 en2 "photography" 30 0 st2 [] (by omega) (by omega)
  have hB60 := runFocus_complete false st2 en2 "photography" 60 0 st2 [] (by omega) (by omega)
  have hB100 := runFocus_complete false st2 en2 "photography" 100 0 st2 [] (by omega) (by omega)
  rw [mkRun_cast]
  rw [hA60, hA30, hB60, hB100]
  norm_num [lerpV, st2, en2]

/-- Claim C3: a focus transition from any start to any end, in either
variant, emits its portfolio key exactly once, on the tick its progress
reaches 1 (the 60th move() call), and emits nothing while it has not
completed. -/
theorem focusSignalOnce (snap : Bool) (st en cam : Vec3) (key : String) (n : Nat) :
    (n < 60 → (runFocus snap n (mkRun st en key) cam []).2.2 = []) ∧
    (60 ≤ n → (runFocus snap n (mkRun st en key) cam []).2.2 = [key]) := by
  constructor
  · intro h
    rcases Nat.eq_zero_or_pos n with h0 | h0
    · subst h0; rfl
    · rw [mkRun_cast, runFocus_run snap st en key n 0 cam [] h0 (by omega)]
  · intro h
    rw [mkRun_cast, runFocus_complete snap st en key n 0 cam [] (by omega) (by omega)]
    rfl

/-- Witness for C3: the transition above emits exactly ["photography"]
after 60 ticks and nothing after 10 ticks. -/
theorem focusSignalOnceWitness :
    (runFocus true 60 (mkRun st2 en2 "photography") st2 []).2.2 = ["photography"] ∧
    (runFocus false 10 (mkRun st2 en2 "computerscience") st2 []).2.2 = [] :=
  ⟨(focusSignalOnce true st2 en2 st2 "photography" 60).2 (by decide),
   (focusSignalOnce false st2 en2 st2 "computerscience" 10).1 (by decide)⟩

/-- Claim C4: after any frame tick from a reachable state, the light
targets are exactly the hover outcome of that tick: a hit whose ancestor
walk reaches the camera (resp. computer) model root makes that model
hovered with its target lit and the other dark; no hit leaves nothing
hovered and both targets dark (also when no model is loaded yet, in which
case the stage is skipped but the state already satisfies this); and at
most one target is ever lit. -/
theorem hoverDeterminesTargets (s : WorldState) (inp : TickInput) (hr : Reachable s) :
    (∀ h : HitObj, inp.hit = some h →
        (walkToRoot (loadedModels s) h.anc = some ModelId.cam →
            (animateTick s inp).hovered = some h ∧
            (animateTick s inp).camTarget = litIntensity ∧ (animateTick s inp).compTarget = 0) ∧
        (walkToRoot (loadedModels s) h.anc = some ModelId.mac →
            (animateTick s inp).hovered = some h ∧
            (animateTick s inp).camTarget = 0 ∧ (animateTick s inp).compTarget = litIntensity)) ∧
    (inp.hit = none →
        (animateTick s inp).hovered = none ∧
        (animateTick s inp).camTarget = 0 ∧ (animateTick s inp).compTarget = 0) ∧
    ((animateTick s inp).camTarget = 0 ∨ (animateTick s inp).compTarget = 0) := by
  have hinv := reachable_inv hr
  refine ⟨?_, ?_, ?_⟩
  · intro h hh
    constructor
    · intro hwalk
      exact hoverStage_hitCam { s with cameraPos := inp.orbitPos } inp h hh hwalk
    · intro hwalk
      exact hoverStage_hitMac { s with cameraPos := inp.orbitPos } inp h hh hwalk
  · intro hh
    exact hoverStage_none { s with cameraPos := inp.orbitPos } inp hh hinv
  · exact (hover_winv { s with cameraPos := inp.orbitPos } inp hinv).1

/-- Witness for C4: in the state reached by loading the camera model, a
tick whose hit resolves to the camera root lights exactly that target. -/
theorem hoverDeterminesTargetsWitness :
    (animateTick (stepW initWorld Ev.loadCam) inp0).hovered = some hitCam ∧
    (animateTick (stepW initWorld Ev.loadCam) inp0).camTarget = litIntensity ∧
    (animateTick (stepW initWorld Ev.loadCam) inp0).compTarget = 0 :=
  ((hoverDeterminesTargets (stepW initWorld Ev.loadCam) inp0
      (Reachable.step Reachable.base trivial)).1 hitCam rfl).1 rfl

/-- Claim C5: the main loop is claimed never to reposition the camera
while a focus transition runs.  Here a transition is running (scheduled,
progress 1/60 < 1), every position its interpolation can produce
satisfies z = 1 + 2y, yet the next main-loop frame writes the
orbit-controls output (9, 9, 9) to the camera, for which z = 9 while
1 + 2y = 19: controls.update() runs unconditionally on every frame. -/
theorem orbitWritesDuringFocus :
    sClick1.runs = [runClick1] ∧ runClick1.scheduled = true ∧
    runClick1.progress = 1/60 ∧ ((1:ℚ)/60 < 1) ∧
    sOrbit.w.cameraPos = ⟨9, 9, 9⟩ ∧ sOrbit.runs = [runClick1] ∧
    (∀ p : ℚ, (lerpV runClick1.start runClick1.endP p).z
        = 1 + 2 * (lerpV runClick1.start runClick1.endP p).y) ∧
    sOrbit.w.cameraPos.z = 9 ∧ 1 + 2 * sOrbit.w.cameraPos.y = 19 ∧ ((9:ℚ) < 19) := by
  refine ⟨?_, rfl, ?_, by norm_num, ?_, ?_, ?_, ?_, ?_, by norm_num⟩
  · norm_num [sClick1, sHover, stepS, sysInit, initWorld, animateTick, hoverStage, loadedModels,
      walkToRoot, hitCam, inp0, lightTick, smoothStep, litIntensity, clickHandler, isPG,
      startFocus, mkRun, focusStepCore, focusStep, lerpV, vadd, modelWorldPos, focusOffset,
      runClick1]
  · norm_num [runClick1]
  · norm_num [sOrbit, sClick1, sHover, stepS, sysInit, initWorld, animateTick, hoverStage,
      loadedModels, walkToRoot, hitCam, inp0, inp9, lightTick, smoothStep, litIntensity,
      clickHandler, isPG, startFocus, mkRun, focusStepCore, focusStep, lerpV, vadd,
      modelWorldPos, focusOffset]
  · norm_num [sOrbit, sClick1, sHover, stepS, sysInit, initWorld, animateTick, hoverStage,
      loadedModels, walkToRoot, hitCam, inp0, inp9, lightTick, smoothStep, litIntensity,
      clickHandler, isPG, startFocus, mkRun, focusStepCore, focusStep, lerpV, vadd,
      modelWorldPos, focusOffset, runClick1]
  · intro p
    simp [lerpV, runClick1]
    ring
  · norm_num [sOrbit, sClick1, sHover, stepS, sysInit, initWorld, animateTick, hoverStage,
      loadedModels, walkToRoot, hitCam, inp0, inp9, lightTick, smoothStep, litIntensity,
      clickHandler, isPG, startFocus, mkRun, focusStepCore, focusStep, lerpV, vadd,
      modelWorldPos, focusOffset]
  · norm_num [sOrbit, sClick1, sHover, stepS, sysInit, initWorld, animateTick, hoverStage,
      loadedModels, walkToRoot, hitCam, inp0, inp9, lightTick, smoothStep, litIntensity,
      clickHandler, isPG, startFocus, mkRun, focusStepCore, focusStep, lerpV, vadd,
      modelWorldPos, focusOffset]

/-- Claim C6: teardown is claimed to leave no scheduled tick and to make
later ticks have no effect.  destroy() does cancel the main loop's frame
and remove the listeners (a later main-loop frame and a later click are
no-ops), but the in-flight focus run is still scheduled, and its next
callback still fires: it moves the camera (y goes from 1/120 to 1/60)
and stays scheduled, so a simulated tick after teardown has an observable
effect. -/
theorem focusTickSurvivesDestroy :
    sDestroyed.mainScheduled = false ∧ sDestroyed.listeners = false ∧
    sDestroyed.destroyed = true ∧
    stepS sDestroyed (SEv.mainTick inp0) = sDestroyed ∧
    stepS sDestroyed SEv.click = sDestroyed ∧
    sDestroyed.runs.map FocusRun.scheduled = [true] ∧
    sDestroyed.w.cameraPos.y = 1/120 ∧ sAfter.w.cameraPos.y = 1/60 ∧
    ((1:ℚ)/120 < 1/60) ∧
    sAfter.runs.map FocusRun.scheduled = [true] ∧ sAfter.events = [] := by
  norm_num [sAfter, sDestroyed, sClick1, sHover, stepS, sysInit, initWorld, animateTick,
    hoverStage, loadedModels, walkToRoot, hitCam, inp0, lightTick, smoothStep, litIntensity,
    clickHandler, isPG, startFocus, mkRun, focusStepCore, focusStep, lerpV, vadd,
    modelWorldPos, focusOffset]

/-- Counterexample for C7: a resize to width 0 (height 400) is claimed to
be a no-op, but the handler overwrites the previous aspect 2 with
0/400 = 0 and the render-target width 800 with 0. -/
theorem resizeZeroWidthNotNoop :
    (handleResize viewPrev 0 400).aspect = 0 ∧ viewPrev.aspect = 2 ∧ ((0:ℚ) < 2) ∧
    (handleResize viewPrev 0 400).width = 0 ∧ viewPrev.width = 800 := by
  norm_num [handleResize, viewPrev]

/-- Claim C7 as amended: for any resize with positive height the handler
unconditionally sets aspect to width/height, updates the projection, and
resizes the render target — including width 0, which is not guarded and
sets the aspect to 0. -/
theorem resizeSetsAspect (v : ViewState) (w h : ℚ) (hh : 0 < h) :
    (handleResize v w h).aspect = w / h ∧ (handleResize v w h).width = w ∧
    (handleResize v w h).height = h ∧ (handleResize v w h).projVersion = v.projVersion + 1 ∧
    (handleResize v 800 400).aspect = 2 ∧ (handleResize v 0 h).aspect = 0 := by
  refine ⟨rfl, rfl, rfl, rfl, by norm_num [handleResize], ?_⟩
  simp [handleResize]

/-- Witness for C7: resizing to 800x400 yields aspect 2 and target
(800, 400), and a zero-width resize yields aspect 0. -/
theorem resizeSetsAspectWitness :
    (handleResize viewPrev 800 400).aspect = 800 / 400 ∧
    (handleResize viewPrev 800 400).width = 800 ∧
    (handleResize viewPrev 800 400).height = 400 ∧
    (handleResize viewPrev 800 400).projVersion = viewPrev.projVersion + 1 ∧
    (handleResize viewPrev 800 400).aspect = 2 ∧
    (handleResize viewPrev 0 400).aspect = 0 :=
  resizeSetsAspect viewPrev 800 400 (by decide)

/-- Claim C8: one smoothing step with the light's current intensity not
yet at its target strictly decreases the distance to the target (the new
distance is 92 percent of the old). -/
theorem smoothStrictApproach (c t : ℚ) (h : c ≠ t) :
    |smoothStep c t - t| < |c - t| := by
  have h1 : smoothStep c t - t = (c - t) * (92/100) := by unfold smoothStep; ring
  rw [h1, abs_mul, abs_of_pos (by norm_num : (0:ℚ) < 92/100)]
  have h3 : 0 < |c - t| := abs_pos.mpr (sub_ne_zero.mpr h)
  nlinarith

/-- Witness for C8: a dark light pulled toward target 1 strictly
approaches it. -/
theorem smoothStrictApproachWitness :
    |smoothStep 0 1 - 1| < |(0:ℚ) - 1| :=
  smoothStrictApproach 0 1 zero_ne_one

/-- Claim C9: in every reachable frame-loop state (so after any sequence
of frame ticks, with the flicker sine values in [-1, 1]), both point-light
intensities are non-negative. -/
theorem glowNeverNegative (s : WorldState) (hr : Reachable s) :
    0 ≤ s.camGlow ∧ 0 ≤ s.compGlow :=
  ⟨(reachable_inv hr).2.2.2.2.1, (reachable_inv hr).2.2.2.2.2⟩

/-- Witness for C9: the intensities after one tick from mount are
non-negative. -/
theorem glowNeverNegativeWitness :
    0 ≤ (animateTick initWorld inpNone).camGlow ∧ 0 ≤ (animateTick initWorld inpNone).compGlow :=
  glowNeverNegative (animateTick initWorld inpNone)
    (@Reachable.step initWorld (Ev.tick inpNone) Reachable.base
      ⟨trivial, by simp [inpNone], by simp [inpNone]⟩)

/-- Claim C10: a frame tick while no model has loaded skips the hover
stage entirely — the hovered reference and both targets are untouched —
while the controls write, the light smoothing and the render still
happen. -/
theorem noModelsTickSkipsHover (s : WorldState) (inp : TickInput)
    (h1 : s.camLoaded = false) (h2 : s.macLoaded = false) :
    (animateTick s inp).hovered = s.hovered ∧
    (animateTick s inp).camTarget = s.camTarget ∧
    (animateTick s inp).compTarget = s.compTarget ∧
    (animateTick s inp).camGlow = lightTick s.camGlow s.camTarget inp.camFlick ∧
    (animateTick s inp).compGlow = lightTick s.compGlow s.compTarget inp.compFlick ∧
    (animateTick s inp).renders = s.renders + 1 ∧
    (animateTick s inp).cameraPos = inp.orbitPos := by
  have hkey : hoverStage { s with cameraPos := inp.orbitPos } inp
      = { s with cameraPos := inp.orbitPos } :=
    hoverStage_empty _ _
      (by rw [show loadedModels { s with cameraPos := inp.orbitPos } = loadedModels s from rfl,
        loadedModels_empty s h1 h2]; rfl)
  unfold animateTick
  rw [hkey]
  exact ⟨rfl, rfl, rfl, rfl, rfl, rfl, rfl⟩

/-- Witness for C10: the tick from the mount state (nothing loaded)
leaves hover state and targets as they were and performs smoothing and
rendering. -/
theorem noModelsTickWitness :
    (animateTick initWorld inpNone).hovered = initWorld.hovered ∧
    (animateTick initWorld inpNone).camTarget = initWorld.camTarget ∧
    (animateTick initWorld inpNone).compTarget = initWorld.compTarget ∧
    (animateTick initWorld inpNone).camGlow
      = lightTick initWorld.camGlow initWorld.camTarget inpNone.camFlick ∧
    (animateTick initWorld inpNone).compGlow
      = lightTick initWorld.compGlow initWorld.compTarget inpNone.compFlick ∧
    (animateTick initWorld inpNone).renders = initWorld.renders + 1 ∧
    (animateTick initWorld inpNone).cameraPos = inpNone.orbitPos :=
  noModelsTickSkipsHover initWorld inpNone rfl rfl
